import Mathlib

/-!
Verification of the shasta marker-graph pipeline scripts.

The repository under verification consists of Python driver scripts
(`RunAssembly.py`, `CreateAndCleanupMarkerGraph.py`, `FlagMarkerGraphWeakEdges.py`,
`ComputeAlignments.py`, `ComputeAllAlignments.py`, `Assemble.py`, ...) that drive
an `Assembler` object.  The scripts themselves are embedded as call traces; the
marker-graph algorithms invoked through the `Assembler` (vertex building via a
disjoint-set structure, weak-edge classification by approximate transitive
reduction, pruning of the strong subgraph, and topology simplification) are not
part of the scripts and are modelled from the specification, as noted on each
definition.
-/

namespace Shasta

/-! ## Disjoint-set Vertex Builder -/

/-- Modelled from the spec: the disjoint-set union step of
`createMarkerGraphVertices` (the C++ `Assembler` method behind
`RunAssembly.py` line 119 and `CreateAndCleanupMarkerGraph.py` line 20 is not
in the repository's scripts).  The state maps every marker occurrence to the
representative of its class; a union merges the classes of the two matched
occurrences, orienting the merged class onto the canonical (smallest)
representative identifier, as the spec's determinism note requires. -/
def ufUnion (s : Nat → Nat) (p : Nat × Nat) : Nat → Nat :=
  fun x => if s x = s p.1 ∨ s x = s p.2 then min (s p.1) (s p.2) else s x

/-- Modelled from the spec: `createMarkerGraphVertices` processes every matched
marker-occurrence pair of every accepted alignment, unioning the two
occurrences; each resulting class becomes one marker-graph vertex.  The result
maps every occurrence to the representative of its vertex class. -/
def createMarkerGraphVertices (alignedPairs : List (Nat × Nat)) : Nat → Nat :=
  alignedPairs.foldl ufUnion (fun x => x)

/-- Equivalence generated by the kernel of a state `s` together with the
matched pairs of `l`.  Two occurrences are related exactly when the alignment
evidence (on top of the classes already recorded in `s`) forces them into the
same vertex. -/
inductive KerPairEquiv (s : Nat → Nat) (l : List (Nat × Nat)) : Nat → Nat → Prop
  | base {x y : Nat} : s x = s y → KerPairEquiv s l x y
  | pair {x y : Nat} : (x, y) ∈ l → KerPairEquiv s l x y
  | symm {x y : Nat} : KerPairEquiv s l x y → KerPairEquiv s l y x
  | trans {x y z : Nat} : KerPairEquiv s l x y → KerPairEquiv s l y z →
      KerPairEquiv s l x z

theorem ufUnion_eq_iff (s : Nat → Nat) (p : Nat × Nat) (x y : Nat) :
    ufUnion s p x = ufUnion s p y ↔
      (s x = s y ∨ ((s x = s p.1 ∨ s x = s p.2) ∧ (s y = s p.1 ∨ s y = s p.2))) := by
  unfold ufUnion
  by_cases hx : s x = s p.1 ∨ s x = s p.2 <;>
    by_cases hy : s y = s p.1 ∨ s y = s p.2
  · rw [if_pos hx, if_pos hy]
    simp [hx, hy]
  · rw [if_pos hx, if_neg hy]
    constructor
    · intro h
      exfalso
      rcases min_choice (s p.1) (s p.2) with hm | hm
      · exact hy (Or.inl (h.symm.trans hm))
      · exact hy (Or.inr (h.symm.trans hm))
    · rintro (h | ⟨h1, h2⟩)
      · exact absurd (by rw [← h]; exact hx) hy
      · exact absurd h2 hy
  · rw [if_neg hx, if_pos hy]
    constructor
    · intro h
      exfalso
      rcases min_choice (s p.1) (s p.2) with hm | hm
      · exact hx (Or.inl (h.trans hm))
      · exact hx (Or.inr (h.trans hm))
    · rintro (h | ⟨h1, h2⟩)
      · exact absurd (by rw [h]; exact hy) hx
      · exact absurd h1 hx
  · rw [if_neg hx, if_neg hy]
    simp [hx, hy]

theorem kerPairEquiv_nil_iff (s : Nat → Nat) (x y : Nat) :
    KerPairEquiv s [] x y ↔ s x = s y := by
  constructor
  · intro h
    induction h with
    | base h => exact h
    | pair h => exact absurd h (List.not_mem_nil _)
    | symm _ ih => exact ih.symm
    | trans _ _ ih1 ih2 => exact ih1.trans ih2
  · exact KerPairEquiv.base

theorem kerPairEquiv_cons (s : Nat → Nat) (p : Nat × Nat) (l : List (Nat × Nat))
    (x y : Nat) :
    KerPairEquiv (ufUnion s p) l x y ↔ KerPairEquiv s (p :: l) x y := by
  have toHead : ∀ z : Nat, s z = s p.1 ∨ s z = s p.2 →
      KerPairEquiv s (p :: l) z p.1 := by
    intro z hz
    rcases hz with hz | hz
    · exact KerPairEquiv.base hz
    · exact KerPairEquiv.trans (KerPairEquiv.base hz)
        (KerPairEquiv.symm (KerPairEquiv.pair (List.mem_cons_self p l)))
  constructor
  · intro h
    induction h with
    | base h =>
      rcases (ufUnion_eq_iff s p _ _).mp h with h | ⟨h1, h2⟩
      · exact KerPairEquiv.base h
      · exact KerPairEquiv.trans (toHead _ h1) (KerPairEquiv.symm (toHead _ h2))
    | pair h => exact KerPairEquiv.pair (List.mem_cons_of_mem p h)
    | symm _ ih => exact KerPairEquiv.symm ih
    | trans _ _ ih1 ih2 => exact KerPairEquiv.trans ih1 ih2
  · intro h
    induction h with
    | base h =>
      apply KerPairEquiv.base
      exact (ufUnion_eq_iff s p _ _).mpr (Or.inl h)
    | pair h =>
      rcases List.mem_cons.mp h with h | h
      · apply KerPairEquiv.base
        apply (ufUnion_eq_iff s p _ _).mpr
        refine Or.inr ⟨Or.inl ?_, Or.inr ?_⟩
        · rw [← h]
        · rw [← h]
      · exact KerPairEquiv.pair h
    | symm _ ih => exact KerPairEquiv.symm ih
    | trans _ _ ih1 ih2 => exact KerPairEquiv.trans ih1 ih2

theorem foldl_ufUnion_eq_iff (l : List (Nat × Nat)) :
    ∀ (s : Nat → Nat) (x y : Nat),
      List.foldl ufUnion s l x = List.foldl ufUnion s l y ↔ KerPairEquiv s l x y := by
  induction l with
  | nil =>
    intro s x y
    simpa using (kerPairEquiv_nil_iff s x y).symm
  | cons p l ih =>
    intro s x y
    simp only [List.foldl_cons]
    exact (ih (ufUnion s p) x y).trans (kerPairEquiv_cons s p l x y)

theorem kerPairEquiv_of_mem_imp {s : Nat → Nat} {l l' : List (Nat × Nat)}
    (hmem : ∀ q : Nat × Nat, q ∈ l → q ∈ l') {x y : Nat}
    (h : KerPairEquiv s l x y) : KerPairEquiv s l' x y := by
  induction h with
  | base h => exact KerPairEquiv.base h
  | pair h => exact KerPairEquiv.pair (hmem _ h)
  | symm _ ih => exact KerPairEquiv.symm ih
  | trans _ _ ih1 ih2 => exact KerPairEquiv.trans ih1 ih2

theorem createMarkerGraphVertices_eq_iff (l : List (Nat × Nat)) (x y : Nat) :
    createMarkerGraphVertices l x = createMarkerGraphVertices l y ↔
      KerPairEquiv (fun z => z) l x y :=
  foldl_ufUnion_eq_iff l (fun z => z) x y

/-- C2: for a fixed alignment evidence store and fixed configuration, any two
runs of the Disjoint-Set Vertex Builder (`createMarkerGraphVertices`) produce
identical vertex partitions, regardless of the order in which the pairwise
alignments (here, their matched occurrence pairs) are processed: two
occurrences land in the same vertex class after processing `l` exactly when
they do after processing any permutation `l'` of `l`. -/
theorem createMarkerGraphVertices_perm_invariant (l l' : List (Nat × Nat))
    (h : l.Perm l') (x y : Nat) :
    (createMarkerGraphVertices l x = createMarkerGraphVertices l y ↔
      createMarkerGraphVertices l' x = createMarkerGraphVertices l' y) := by
  rw [createMarkerGraphVertices_eq_iff, createMarkerGraphVertices_eq_iff]
  constructor
  · exact kerPairEquiv_of_mem_imp (fun q hq => h.mem_iff.mp hq)
  · exact kerPairEquiv_of_mem_imp (fun q hq => h.mem_iff.mpr hq)

/-- Witness for C2 at a concrete evidence store and a transposed processing
order. -/
theorem createMarkerGraphVertices_perm_invariant_witness :
    (createMarkerGraphVertices [(1, 2), (3, 4)] 1 =
        createMarkerGraphVertices [(1, 2), (3, 4)] 2 ↔
      createMarkerGraphVertices [(3, 4), (1, 2)] 1 =
        createMarkerGraphVertices [(3, 4), (1, 2)] 2) :=
  createMarkerGraphVertices_perm_invariant [(1, 2), (3, 4)] [(3, 4), (1, 2)]
    (by decide) 1 2

theorem foldl_ufUnion_le (l : List (Nat × Nat)) :
    ∀ s : Nat → Nat, (∀ x, s x ≤ x) → ∀ x, List.foldl ufUnion s l x ≤ x := by
  induction l with
  | nil => intro s hs x; simpa using hs x
  | cons p l ih =>
    intro s hs x
    simp only [List.foldl_cons]
    refine ih (ufUnion s p) ?_ x
    intro z
    unfold ufUnion
    by_cases hz : s z = s p.1 ∨ s z = s p.2
    · rw [if_pos hz]
      rcases hz with hz | hz
      · exact le_trans (hz ▸ min_le_left _ _) (hs z)
      · exact le_trans (hz ▸ min_le_right _ _) (hs z)
    · rw [if_neg hz]; exact hs z

theorem foldl_ufUnion_idem (l : List (Nat × Nat)) :
    ∀ s : Nat → Nat, (∀ x, s (s x) = s x) →
      ∀ x, List.foldl ufUnion s l (List.foldl ufUnion s l x) =
        List.foldl ufUnion s l x := by
  induction l with
  | nil => intro s hs x; simpa using hs x
  | cons p l ih =>
    intro s hs x
    simp only [List.foldl_cons]
    refine ih (ufUnion s p) ?_ x
    intro z
    unfold ufUnion
    by_cases hz : s z = s p.1 ∨ s z = s p.2
    · rw [if_pos hz]
      have hm : s (min (s p.1) (s p.2)) = min (s p.1) (s p.2) := by
        rcases min_choice (s p.1) (s p.2) with hm | hm <;> rw [hm, hs]
      have hcond : s (min (s p.1) (s p.2)) = s p.1 ∨
          s (min (s p.1) (s p.2)) = s p.2 := by
        rw [hm]; exact min_choice _ _
      rw [if_pos hcond]
    · rw [if_neg hz]
      have hz' : ¬(s (s z) = s p.1 ∨ s (s z) = s p.2) := by
        rw [hs]; exact hz
      rw [if_neg hz', hs]

theorem createMarkerGraphVertices_le (l : List (Nat × Nat)) (x : Nat) :
    createMarkerGraphVertices l x ≤ x :=
  foldl_ufUnion_le l (fun z => z) (fun _ => le_refl _) x

theorem createMarkerGraphVertices_idem (l : List (Nat × Nat)) (x : Nat) :
    createMarkerGraphVertices l (createMarkerGraphVertices l x) =
      createMarkerGraphVertices l x :=
  foldl_ufUnion_idem l (fun z => z) (fun _ => rfl) x

/-- Representatives of the vertices produced by the Vertex Builder from the
occurrences `0, ..., n-1`: the occurrences that are the canonical
representative of their own class. -/
def markerGraphVertexReps (l : List (Nat × Nat)) (n : Nat) : Finset Nat :=
  (Finset.range n).filter (fun r => createMarkerGraphVertices l r = r)

/-- Coverage of the vertex with representative `r`: the number of marker
occurrences among `0, ..., n-1` whose class representative is `r`. -/
def vertexCoverage (l : List (Nat × Nat)) (n r : Nat) : Nat :=
  ((Finset.range n).filter (fun x => createMarkerGraphVertices l x = r)).card

/-- C3: after the Vertex Builder completes (and before any pruning), the sum of
the coverages of all vertices it produced — including singleton vertices of
coverage 1 for occurrences matched by no aligned pair — equals the total number
`n` of marker occurrences fed in: no occurrence is lost or double-counted. -/
theorem createMarkerGraphVertices_coverage_conservation
    (l : List (Nat × Nat)) (n : Nat)
    (h : ∀ p ∈ l, p.1 < n ∧ p.2 < n) :
    ∑ r ∈ markerGraphVertexReps l n, vertexCoverage l n r = n := by
  have hmap : ∀ x ∈ Finset.range n,
      createMarkerGraphVertices l x ∈ markerGraphVertexReps l n := by
    intro x hx
    unfold markerGraphVertexReps
    rw [Finset.mem_filter]
    refine ⟨Finset.mem_range.mpr ?_, createMarkerGraphVertices_idem l x⟩
    exact lt_of_le_of_lt (createMarkerGraphVertices_le l x) (Finset.mem_range.mp hx)
  calc ∑ r ∈ markerGraphVertexReps l n, vertexCoverage l n r
      = (Finset.range n).card := (Finset.card_eq_sum_card_fiberwise hmap).symm
    _ = n := Finset.card_range n

/-- Witness for C3 at a concrete evidence store: three occurrences, one aligned
pair; the merged class has coverage 2 and the unmatched occurrence remains a
singleton of coverage 1, summing to 3. -/
theorem createMarkerGraphVertices_coverage_conservation_witness :
    ∑ r ∈ markerGraphVertexReps [(0, 1)] 3, vertexCoverage [(0, 1)] 3 r = 3 :=
  createMarkerGraphVertices_coverage_conservation [(0, 1)] 3 (by decide)

/-! ## Marker graph, Edge Reliability Classifier -/

/-- Modelled from the spec: a marker-graph edge — a directed relation between
two vertices, annotated with a coverage count and a mutable reliability flag
(`weak = true` means flagged weak, `weak = false` means strong).  The edge
carries a stable identifier. -/
structure MGEdge where
  id : Nat
  src : Nat
  dst : Nat
  coverage : Nat
  weak : Bool
deriving DecidableEq, Repr

/-- Modelled from the spec: the marker graph — live vertices plus directed
edges between them. -/
structure MarkerGraph where
  vertices : List Nat
  edges : List MGEdge
deriving DecidableEq, Repr

/-- Bounded reachability: `canReach es t k u = true` when some directed path
of at least one and at most `k` edges of `es` leads from `u` to `t`. -/
def canReach (es : List MGEdge) (t : Nat) : Nat → Nat → Bool
  | 0, _ => false
  | k + 1, u => es.any (fun e => e.src == u && (e.dst == t || canReach es t k e.dst))

/-- Directed path in the edge set `es` from `u` to `v` (nonempty, listed as its
edge sequence). -/
inductive IsPath (es : List MGEdge) : Nat → Nat → List MGEdge → Prop
  | single {e : MGEdge} : e ∈ es → IsPath es e.src e.dst [e]
  | cons {e : MGEdge} {t : Nat} {p : List MGEdge} : e ∈ es →
      IsPath es e.dst t p → IsPath es e.src t (e :: p)

theorem isPath_ne_nil {es : List MGEdge} {u v : Nat} {p : List MGEdge}
    (h : IsPath es u v p) : p ≠ [] := by
  cases h <;> simp

theorem canReach_iff_exists_path (es : List MGEdge) (t : Nat) (k u : Nat) :
    canReach es t k u = true ↔ ∃ p, IsPath es u t p ∧ p.length ≤ k := by
  induction k generalizing u with
  | zero =>
    simp only [canReach]
    constructor
    · intro h; exact absurd h (by simp)
    · rintro ⟨p, hp, hl⟩
      exact absurd (Nat.le_zero.mp hl) (by
        intro h
        exact isPath_ne_nil hp (List.length_eq_zero.mp h))
  | succ k ih =>
    simp only [canReach, List.any_eq_true, Bool.and_eq_true, Bool.or_eq_true,
      beq_iff_eq]
    constructor
    · rintro ⟨e, he, hsrc, hdst | hreach⟩
      · refine ⟨[e], ?_, by simp⟩
        have h1 : IsPath es e.src e.dst [e] := IsPath.single he
        rw [hsrc, hdst] at h1
        exact h1
      · obtain ⟨p, hp, hl⟩ := (ih e.dst).mp hreach
        refine ⟨e :: p, ?_, by simpa using Nat.succ_le_succ hl⟩
        have h1 : IsPath es e.src t (e :: p) := IsPath.cons he hp
        rw [hsrc] at h1
        exact h1
    · rintro ⟨p, hp, hl⟩
      cases hp with
      | single he => exact ⟨_, he, rfl, Or.inl rfl⟩
      | cons he hp' =>
        refine ⟨_, he, rfl, Or.inr ((ih _).mpr ⟨_, hp', ?_⟩)⟩
        simpa using Nat.le_of_succ_le_succ hl

theorem isPath_filter_iff (q : MGEdge → Bool) (es : List MGEdge) (u v : Nat)
    (p : List MGEdge) :
    IsPath (es.filter q) u v p ↔ (IsPath es u v p ∧ ∀ f ∈ p, q f = true) := by
  constructor
  · intro h
    induction h with
    | single he =>
      rcases List.mem_filter.mp he with ⟨he', hq⟩
      exact ⟨IsPath.single he', by simpa using hq⟩
    | cons he _ ih =>
      rcases List.mem_filter.mp he with ⟨he', hq⟩
      refine ⟨IsPath.cons he' ih.1, ?_⟩
      intro f hf
      rcases List.mem_cons.mp hf with hf | hf
      · rw [hf]; exact hq
      · exact ih.2 f hf
  · rintro ⟨h, hq⟩
    induction h with
    | single he =>
      exact IsPath.single (List.mem_filter.mpr ⟨he, hq _ (by simp)⟩)
    | cons he _ ih =>
      refine IsPath.cons (List.mem_filter.mpr ⟨he, hq _ (by simp)⟩) ?_
      exact ih (fun f hf => hq f (List.mem_cons_of_mem _ hf))

/-- Modelled from the spec: the edges usable by an alternative path for edge
`e` — edges of the graph other than `e` itself (by identifier) whose coverage
is at least `high`. -/
def altHighEdges (g : MarkerGraph) (high : Nat) (e : MGEdge) : List MGEdge :=
  g.edges.filter (fun f => !(f.id == e.id) && decide (high ≤ f.coverage))

/-- Modelled from the spec: the weak-edge criterion of the Edge Reliability
Classifier — an edge is flagged weak when its own coverage is at most
`low` and an alternative path of at most `maxDistance` hops, composed entirely
of edges with coverage at least `high`, joins its endpoints. -/
def edgeIsWeak (g : MarkerGraph) (low high maxDistance : Nat) (e : MGEdge) : Bool :=
  decide (e.coverage ≤ low) && canReach (altHighEdges g high e) e.dst maxDistance e.src

/-- Modelled from the spec: `flagMarkerGraphWeakEdges` (the `Assembler` method
invoked at `RunAssembly.py` line 129, `CreateAndCleanupMarkerGraph.py` line 30
and `FlagMarkerGraphWeakEdges.py` line 13 is not in the repository's scripts).
One invocation recomputes the reliability flag of every edge; only flags are
mutated, topology is untouched. -/
def flagMarkerGraphWeakEdges (g : MarkerGraph) (low high maxDistance : Nat) :
    MarkerGraph where
  vertices := g.vertices
  edges := g.edges.map (fun e => { e with weak := edgeIsWeak g low high maxDistance e })

theorem edgeIsWeak_flag_update (g : MarkerGraph) (low high maxDistance : Nat)
    (e : MGEdge) (b : Bool) :
    edgeIsWeak g low high maxDistance { e with weak := b } =
      edgeIsWeak g low high maxDistance e := rfl

/-- C1: for every marker-graph edge, after one invocation of the Edge
Reliability Classifier (`flagMarkerGraphWeakEdges`) the edge is flagged weak if
and only if its own coverage is at most `low` and an alternative path between
its endpoints exists, within `maxDistance` hops, composed entirely of edges
with coverage at least `high`; every other edge is flagged strong (binary
flag, so `weak = false`). -/
theorem flagMarkerGraphWeakEdges_spec (g : MarkerGraph) (low high maxDistance : Nat)
    (e : MGEdge) (he : e ∈ (flagMarkerGraphWeakEdges g low high maxDistance).edges) :
    (e.weak = true ↔
      (e.coverage ≤ low ∧ ∃ p, IsPath g.edges e.src e.dst p ∧
        p.length ≤ maxDistance ∧ (∀ f ∈ p, high ≤ f.coverage) ∧
        (∀ f ∈ p, f.id ≠ e.id))) := by
  obtain ⟨e0, he0, heq⟩ := List.mem_map.mp he
  have hweak : e.weak = edgeIsWeak g low high maxDistance e := by
    rw [← heq]; rfl
  rw [hweak]
  unfold edgeIsWeak
  rw [Bool.and_eq_true, decide_eq_true_eq, canReach_iff_exists_path]
  constructor
  · rintro ⟨hcov, p, hp, hl⟩
    rcases (isPath_filter_iff _ _ _ _ _).mp hp with ⟨hp', hq⟩
    refine ⟨hcov, p, hp', hl, ?_, ?_⟩
    · intro f hf
      have := hq f hf
      simp only [Bool.and_eq_true, Bool.not_eq_true', beq_eq_false_iff_ne,
        decide_eq_true_eq] at this
      exact this.2
    · intro f hf
      have := hq f hf
      simp only [Bool.and_eq_true, Bool.not_eq_true', beq_eq_false_iff_ne,
        decide_eq_true_eq] at this
      exact this.1
  · rintro ⟨hcov, p, hp, hl, hhigh, hid⟩
    refine ⟨hcov, p, ?_, hl⟩
    refine (isPath_filter_iff _ _ _ _ _).mpr ⟨hp, ?_⟩
    intro f hf
    simp only [Bool.and_eq_true, Bool.not_eq_true', beq_eq_false_iff_ne,
      decide_eq_true_eq]
    exact ⟨hid f hf, hhigh f hf⟩

/-- Witness for C1 on a concrete triangle graph: the coverage-1 edge `0 → 1`
has the alternative high-coverage path `0 → 2 → 1` and comes out flagged
weak. -/
theorem flagMarkerGraphWeakEdges_spec_witness :
    ((⟨0, 0, 1, 1, true⟩ : MGEdge) ∈
      (flagMarkerGraphWeakEdges
        ⟨[0, 1, 2], [⟨0, 0, 1, 1, false⟩, ⟨1, 0, 2, 5, false⟩, ⟨2, 2, 1, 5, false⟩]⟩
        1 5 2).edges) ∧
    ((⟨0, 0, 1, 1, true⟩ : MGEdge).weak = true ↔
      ((⟨0, 0, 1, 1, true⟩ : MGEdge).coverage ≤ 1 ∧ ∃ p,
        IsPath (MarkerGraph.edges
          ⟨[0, 1, 2], [⟨0, 0, 1, 1, false⟩, ⟨1, 0, 2, 5, false⟩, ⟨2, 2, 1, 5, false⟩]⟩)
          (⟨0, 0, 1, 1, true⟩ : MGEdge).src (⟨0, 0, 1, 1, true⟩ : MGEdge).dst p ∧
        p.length ≤ 2 ∧ (∀ f ∈ p, 5 ≤ f.coverage) ∧
        (∀ f ∈ p, f.id ≠ (⟨0, 0, 1, 1, true⟩ : MGEdge).id))) :=
  ⟨by decide,
    flagMarkerGraphWeakEdges_spec
      ⟨[0, 1, 2], [⟨0, 0, 1, 1, false⟩, ⟨1, 0, 2, 5, false⟩, ⟨2, 2, 1, 5, false⟩]⟩
      1 5 2 ⟨0, 0, 1, 1, true⟩ (by decide)⟩

/-- State of the reliability flags midway through one classifier invocation:
the invocation resets every flag to strong and then walks the edge list once,
flagging the weak ones; after the first `k` edges have been processed, edge
identifier `i` is flagged weak exactly when one of those `k` edges carries
identifier `i` and satisfies the weak criterion. -/
def classifierWeakAfter (g : MarkerGraph) (low high maxDistance k i : Nat) : Bool :=
  (g.edges.take k).any (fun e => e.id == i && edgeIsWeak g low high maxDistance e)

/-- C6: within a single invocation of the Edge Reliability Classifier, no
edge's reliability flag ever transitions from weak to strong: if edge
identifier `i` is flagged weak after `j` processing steps, it is still flagged
weak after any later step `k` of the same invocation. -/
theorem classifierWeakAfter_monotone (g : MarkerGraph)
    (low high maxDistance j k i : Nat) (hjk : j ≤ k)
    (hw : classifierWeakAfter g low high maxDistance j i = true) :
    classifierWeakAfter g low high maxDistance k i = true := by
  unfold classifierWeakAfter at hw ⊢
  rw [List.any_eq_true] at hw ⊢
  obtain ⟨e, he, hcond⟩ := hw
  refine ⟨e, ?_, hcond⟩
  have : g.edges.take j = (g.edges.take k).take j := by
    rw [List.take_take, Nat.min_eq_left hjk]
  rw [this] at he
  exact List.mem_of_mem_take he

/-- Witness for C6: in the concrete triangle graph, edge identifier 0 is weak
after the first processing step and remains weak at the end of the
invocation. -/
theorem classifierWeakAfter_monotone_witness :
    classifierWeakAfter
      ⟨[0, 1, 2], [⟨0, 0, 1, 1, false⟩, ⟨1, 0, 2, 5, false⟩, ⟨2, 2, 1, 5, false⟩]⟩
      1 5 2 3 0 = true :=
  classifierWeakAfter_monotone
    ⟨[0, 1, 2], [⟨0, 0, 1, 1, false⟩, ⟨1, 0, 2, 5, false⟩, ⟨2, 2, 1, 5, false⟩]⟩
    1 5 2 1 3 0 (by decide) (by decide)

/-! ## Subgraph Pruner -/

/-- Modelled from the spec: out-degree of a vertex in the strong-edge
subgraph. -/
def strongOutDegree (g : MarkerGraph) (v : Nat) : Nat :=
  (g.edges.filter (fun e => !e.weak && e.src == v)).length

/-- Modelled from the spec: in-degree of a vertex in the strong-edge
subgraph. -/
def strongInDegree (g : MarkerGraph) (v : Nat) : Nat :=
  (g.edges.filter (fun e => !e.weak && e.dst == v)).length

/-- Modelled from the spec: a dead-end vertex — in-degree 0 or out-degree 0
among strong edges. -/
def isDeadEnd (g : MarkerGraph) (v : Nat) : Bool :=
  strongInDegree g v == 0 || strongOutDegree g v == 0

/-- Modelled from the spec: one Pruner round — identify all current dead-ends,
remove them and their incident edges (weak edges incident to a removed vertex
are removed too), in one transaction. -/
def pruneRound (g : MarkerGraph) : MarkerGraph where
  vertices := g.vertices.filter (fun v => !(isDeadEnd g v))
  edges := g.edges.filter (fun e => !(isDeadEnd g e.src) && !(isDeadEnd g e.dst))

/-- Modelled from the spec: `pruneMarkerGraphStrongSubgraph` (the `Assembler`
method invoked at `RunAssembly.py` line 136 and
`CreateAndCleanupMarkerGraph.py` line 37 is not in the repository's scripts).
It runs up to `iterationCount` Pruner rounds, terminating early as soon as a
round removes nothing. -/
def pruneMarkerGraphStrongSubgraph (iterationCount : Nat) (g : MarkerGraph) :
    MarkerGraph :=
  match iterationCount with
  | 0 => g
  | n + 1 =>
    if pruneRound g = g then g
    else pruneMarkerGraphStrongSubgraph n (pruneRound g)

/-! ## Topology Simplifier -/

/-- Enumeration of the directed paths of `es` from `u` to `t` that use at least
one and at most `k` edges. -/
def pathsFrom (es : List MGEdge) (t : Nat) : Nat → Nat → List (List MGEdge)
  | 0, _ => []
  | k + 1, u =>
    ((es.filter (fun e => e.src == u)).map (fun e =>
      (if e.dst == t then [[e]] else []) ++
        (pathsFrom es t k e.dst).map (fun p => e :: p))).flatten

/-- Directed cycles of length at most `maxLength` passing through the edge
`e`: the edge followed by a return path from its head to its tail. -/
def shortCyclesThrough (g : MarkerGraph) (maxLength : Nat) (e : MGEdge) :
    List (List MGEdge) :=
  ((if e.dst == e.src then [[e]] else []) ++
    (pathsFrom g.edges e.src (maxLength - 1) e.dst).map (fun p => e :: p)).filter
    (fun c => decide (c.length ≤ maxLength))

/-- The deterministic cycle-breaking choice: `e` is the lowest-coverage edge of
the cycle `c`, ties broken by lowest edge identifier. -/
def isMinCycleEdge (c : List MGEdge) (e : MGEdge) : Bool :=
  c.all (fun f => decide (e.coverage < f.coverage) ||
    (e.coverage == f.coverage && decide (e.id ≤ f.id)))

/-- Modelled from the spec: `removeShortMarkerGraphCycles` (the `Assembler`
method invoked at `RunAssembly.py` line 140 is not in the repository's
scripts).  Directed cycles of length at most `maxLength` are broken by removing
the lowest-coverage edge on the cycle (ties by lowest identifier); vertices are
untouched. -/
def removeShortMarkerGraphCycles (maxLength : Nat) (g : MarkerGraph) :
    MarkerGraph where
  vertices := g.vertices
  edges := g.edges.filter (fun e =>
    !((shortCyclesThrough g maxLength e).any (fun c => isMinCycleEdge c e)))

/-- Vertices strictly inside a path (every visited vertex except the two
endpoints). -/
def innerVertices (p : List MGEdge) : List Nat :=
  (p.map (fun e => e.dst)).dropLast

/-- Total coverage of a path. -/
def pathCoverage (p : List MGEdge) : Nat :=
  (p.map (fun e => e.coverage)).sum

/-- Two paths sharing no inner vertices. -/
def disjointInner (p q : List MGEdge) : Bool :=
  (innerVertices p).all (fun v => !((innerVertices q).contains v))

/-- The edge `e` lies on the losing side of a bubble: two parallel paths of
length at most `maxLength` join a common source and sink, are vertex-disjoint
except at the endpoints, `e` lies on the path of strictly lower total
coverage. -/
def isBubbleLosingEdge (g : MarkerGraph) (maxLength : Nat) (e : MGEdge) : Bool :=
  g.vertices.any (fun s => g.vertices.any (fun t =>
    (pathsFrom g.edges t maxLength s).any (fun q =>
      q.contains e && (pathsFrom g.edges t maxLength s).any (fun p =>
        !(p == q) && disjointInner p q && disjointInner q p &&
          decide (pathCoverage q < pathCoverage p)))))

/-- Modelled from the spec: `removeMarkerGraphBubbles` (the `Assembler` method
invoked at `RunAssembly.py` line 142 is not in the repository's scripts).
Bubble removal keeps the highest-total-coverage path of each bubble and removes
the edges of the others; vertices are untouched. -/
def removeMarkerGraphBubbles (maxLength : Nat) (g : MarkerGraph) : MarkerGraph where
  vertices := g.vertices
  edges := g.edges.filter (fun e => !(isBubbleLosingEdge g maxLength e))

/-- The edge `e` lies on the losing side of a superbubble: as for bubbles, but
the alternative paths may share intermediate vertices. -/
def isSuperBubbleLosingEdge (g : MarkerGraph) (maxLength : Nat) (e : MGEdge) :
    Bool :=
  g.vertices.any (fun s => g.vertices.any (fun t =>
    (pathsFrom g.edges t maxLength s).any (fun q =>
      q.contains e && (pathsFrom g.edges t maxLength s).any (fun p =>
        !(p == q) && decide (pathCoverage q < pathCoverage p)))))

/-- Modelled from the spec: `removeMarkerGraphSuperBubbles` (the `Assembler`
method invoked at `RunAssembly.py` line 144 is not in the repository's
scripts).  Superbubble removal generalizes bubble removal to fork/merge
structures whose paths may share intermediate vertices; same
keep-best-coverage, discard-rest policy; vertices are untouched. -/
def removeMarkerGraphSuperBubbles (maxLength : Nat) (g : MarkerGraph) :
    MarkerGraph where
  vertices := g.vertices
  edges := g.edges.filter (fun e => !(isSuperBubbleLosingEdge g maxLength e))

/-- Invariant I2: every edge of the graph references only live vertices. -/
def edgesReferLive (g : MarkerGraph) : Prop :=
  ∀ e ∈ g.edges, e.src ∈ g.vertices ∧ e.dst ∈ g.vertices

instance edgesReferLive_decidable (g : MarkerGraph) : Decidable (edgesReferLive g) :=
  inferInstanceAs (Decidable (∀ e ∈ g.edges, e.src ∈ g.vertices ∧ e.dst ∈ g.vertices))

theorem pruneRound_edgesReferLive {g : MarkerGraph} (h : edgesReferLive g) :
    edgesReferLive (pruneRound g) := by
  intro e he
  unfold pruneRound at he
  simp only at he
  rcases List.mem_filter.mp he with ⟨he', hcond⟩
  rw [Bool.and_eq_true] at hcond
  obtain ⟨hs, hd⟩ := h e he'
  constructor
  · exact List.mem_filter.mpr ⟨hs, hcond.1⟩
  · exact List.mem_filter.mpr ⟨hd, hcond.2⟩

theorem pruneMarkerGraphStrongSubgraph_edgesReferLive (n : Nat) :
    ∀ g : MarkerGraph, edgesReferLive g →
      edgesReferLive (pruneMarkerGraphStrongSubgraph n g) := by
  induction n with
  | zero => intro g h; exact h
  | succ n ih =>
    intro g h
    unfold pruneMarkerGraphStrongSubgraph
    by_cases hfix : pruneRound g = g
    · rw [if_pos hfix]; exact h
    · rw [if_neg hfix]
      exact ih (pruneRound g) (pruneRound_edgesReferLive h)

theorem filter_edges_edgesReferLive {g : MarkerGraph} (h : edgesReferLive g)
    (q : MGEdge → Bool) :
    edgesReferLive ⟨g.vertices, g.edges.filter q⟩ := by
  intro e he
  exact h e (List.mem_filter.mp he).1

/-- C5: after every Pruner round (and hence after the full Pruner) and after
every Topology Simplifier pass (short-cycle removal, bubble removal,
superbubble removal), every edge of the marker graph references only live
vertices: whenever a vertex is removed, all edges incident to it are removed
in the same transaction, and the simplifier passes remove only edges. -/
theorem cleanup_preserves_edgesReferLive (g : MarkerGraph)
    (h : edgesReferLive g) (n maxLength : Nat) :
    edgesReferLive (pruneRound g) ∧
    edgesReferLive (pruneMarkerGraphStrongSubgraph n g) ∧
    edgesReferLive (removeShortMarkerGraphCycles maxLength g) ∧
    edgesReferLive (removeMarkerGraphBubbles maxLength g) ∧
    edgesReferLive (removeMarkerGraphSuperBubbles maxLength g) :=
  ⟨pruneRound_edgesReferLive h,
    pruneMarkerGraphStrongSubgraph_edgesReferLive n g h,
    filter_edges_edgesReferLive h _,
    filter_edges_edgesReferLive h _,
    filter_edges_edgesReferLive h _⟩

/-- Witness for C5 on the concrete triangle graph. -/
theorem cleanup_preserves_edgesReferLive_witness :
    edgesReferLive
      (pruneRound
        ⟨[0, 1, 2], [⟨0, 0, 1, 1, false⟩, ⟨1, 0, 2, 5, false⟩, ⟨2, 2, 1, 5, false⟩]⟩) ∧
    edgesReferLive
      (pruneMarkerGraphStrongSubgraph 2
        ⟨[0, 1, 2], [⟨0, 0, 1, 1, false⟩, ⟨1, 0, 2, 5, false⟩, ⟨2, 2, 1, 5, false⟩]⟩) ∧
    edgesReferLive
      (removeShortMarkerGraphCycles 3
        ⟨[0, 1, 2], [⟨0, 0, 1, 1, false⟩, ⟨1, 0, 2, 5, false⟩, ⟨2, 2, 1, 5, false⟩]⟩) ∧
    edgesReferLive
      (removeMarkerGraphBubbles 3
        ⟨[0, 1, 2], [⟨0, 0, 1, 1, false⟩, ⟨1, 0, 2, 5, false⟩, ⟨2, 2, 1, 5, false⟩]⟩) ∧
    edgesReferLive
      (removeMarkerGraphSuperBubbles 3
        ⟨[0, 1, 2], [⟨0, 0, 1, 1, false⟩, ⟨1, 0, 2, 5, false⟩, ⟨2, 2, 1, 5, false⟩]⟩) :=
  cleanup_preserves_edgesReferLive
    ⟨[0, 1, 2], [⟨0, 0, 1, 1, false⟩, ⟨1, 0, 2, 5, false⟩, ⟨2, 2, 1, 5, false⟩]⟩
    (by decide) 2 3

theorem pruneMarkerGraphStrongSubgraph_of_fixed {g : MarkerGraph}
    (hfix : pruneRound g = g) (m : Nat) :
    pruneMarkerGraphStrongSubgraph m g = g := by
  cases m with
  | zero => rfl
  | succ m => unfold pruneMarkerGraphStrongSubgraph; rw [if_pos hfix]

theorem pruneMarkerGraphStrongSubgraph_succ (n : Nat) (g : MarkerGraph) :
    pruneMarkerGraphStrongSubgraph (n + 1) g =
      if pruneRound g = g then g
      else pruneMarkerGraphStrongSubgraph n (pruneRound g) := rfl

theorem pruneMarkerGraphStrongSubgraph_add (n m : Nat) :
    ∀ g : MarkerGraph, pruneMarkerGraphStrongSubgraph (n + m) g =
      pruneMarkerGraphStrongSubgraph m (pruneMarkerGraphStrongSubgraph n g) := by
  induction n with
  | zero =>
    intro g
    rw [Nat.zero_add]
    rfl
  | succ n ih =>
    intro g
    have harith : n + 1 + m = (n + m) + 1 := by omega
    rw [harith, pruneMarkerGraphStrongSubgraph_succ,
      pruneMarkerGraphStrongSubgraph_succ]
    by_cases hfix : pruneRound g = g
    · rw [if_pos hfix, if_pos hfix,
        pruneMarkerGraphStrongSubgraph_of_fixed hfix m]
    · rw [if_neg hfix, if_neg hfix]
      exact ih (pruneRound g)

/-- C7: for every graph state and every iteration budget, once a Pruner round
removes nothing, running the Pruner for any number of additional rounds yields
no further change: if the state after `n` rounds is a fixed point of a Pruner
round, then `m` further rounds leave it unchanged. -/
theorem pruneMarkerGraphStrongSubgraph_idem (g : MarkerGraph) (n m : Nat)
    (hfix : pruneRound (pruneMarkerGraphStrongSubgraph n g) =
      pruneMarkerGraphStrongSubgraph n g) :
    pruneMarkerGraphStrongSubgraph (n + m) g =
      pruneMarkerGraphStrongSubgraph n g := by
  rw [pruneMarkerGraphStrongSubgraph_add]
  exact pruneMarkerGraphStrongSubgraph_of_fixed hfix m

/-- Witness for C7 on a concrete two-vertex cycle, which has no dead ends: one
round removes nothing, and five further rounds change nothing. -/
theorem pruneMarkerGraphStrongSubgraph_idem_witness :
    pruneMarkerGraphStrongSubgraph (1 + 5)
        ⟨[0, 1], [⟨0, 0, 1, 2, false⟩, ⟨1, 1, 0, 2, false⟩]⟩ =
      pruneMarkerGraphStrongSubgraph 1
        ⟨[0, 1], [⟨0, 0, 1, 2, false⟩, ⟨1, 1, 0, 2, false⟩]⟩ :=
  pruneMarkerGraphStrongSubgraph_idem
    ⟨[0, 1], [⟨0, 0, 1, 2, false⟩, ⟨1, 1, 0, 2, false⟩]⟩ 1 5 (by decide)

/-! ## Pipeline scripts as call traces -/

/-- Argument value as written in the scripts: a value read from the
configuration file (`int`, `float` or string, with its section and key), a
string literal, a boolean, or an integer literal. -/
inductive ArgVal
  | confInt (sec key : String)
  | confFloat (sec key : String)
  | confStr (sec key : String)
  | strLit (s : String)
  | boolLit (b : Bool)
  | intLit (n : Int)
deriving DecidableEq, Repr

/-- One call statement of a pipeline script: the function or method name and
its arguments (keyword name, or empty string for a positional argument). -/
structure PipelineCall where
  fn : String
  args : List (String × ArgVal)
deriving DecidableEq, Repr

/-- Call trace of `runAssembly` in `RunAssembly.py` (lines 53-160), as a
function of the `useMarginPhase` configuration flag and of the input fasta
file list. -/
def runAssemblyCalls (useMarginPhase : Bool) (fastaFileNames : List String) :
    List PipelineCall :=
  [⟨"setupConsensusCaller", [("", ArgVal.confStr "Assembly" "consensusCaller")]⟩] ++
  (if useMarginPhase then [⟨"setupMarginPhase", []⟩] else []) ++
  [⟨"accessReadsReadWrite", []⟩, ⟨"accessReadNamesReadWrite", []⟩] ++
  fastaFileNames.map (fun f =>
    ⟨"addReadsFromFasta", [("fileName", ArgVal.strLit f),
      ("minReadLength", ArgVal.confInt "Reads" "minReadLength")]⟩) ++
  [⟨"histogramReadLength", [("fileName", ArgVal.strLit "ReadLengthHistogram.csv")]⟩,
   ⟨"randomlySelectKmers", [("k", ArgVal.confInt "Kmers" "k"),
     ("probability", ArgVal.confFloat "Kmers" "probability")]⟩,
   ⟨"findMarkers", []⟩,
   ⟨"findAlignmentCandidatesLowHash", [("m", ArgVal.confInt "MinHash" "m"),
     ("hashFraction", ArgVal.confFloat "MinHash" "hashFraction"),
     ("minHashIterationCount", ArgVal.confInt "MinHash" "minHashIterationCount"),
     ("maxBucketSize", ArgVal.confInt "MinHash" "maxBucketSize"),
     ("minFrequency", ArgVal.confInt "MinHash" "minFrequency")]⟩,
   ⟨"computeAlignments", [("maxMarkerFrequency", ArgVal.confInt "Align" "maxMarkerFrequency"),
     ("maxSkip", ArgVal.confInt "Align" "maxSkip"),
     ("minAlignedMarkerCount", ArgVal.confInt "Align" "minAlignedMarkerCount"),
     ("maxTrim", ArgVal.confInt "Align" "maxTrim")]⟩,
   ⟨"createReadGraph", [("maxAlignmentCount", ArgVal.confInt "ReadGraph" "maxAlignmentCount"),
     ("maxTrim", ArgVal.confInt "Align" "maxTrim")]⟩,
   ⟨"flagChimericReads",
     [("maxChimericReadDistance", ArgVal.confInt "ReadGraph" "maxChimericReadDistance")]⟩,
   ⟨"computeReadGraphConnectedComponents", []⟩,
   ⟨"createMarkerGraphVertices",
     [("maxMarkerFrequency", ArgVal.confInt "Align" "maxMarkerFrequency"),
      ("maxSkip", ArgVal.confInt "Align" "maxSkip"),
      ("minCoverage", ArgVal.confInt "MarkerGraph" "minCoverage"),
      ("maxCoverage", ArgVal.confInt "MarkerGraph" "maxCoverage")]⟩,
   ⟨"createMarkerGraphEdges", []⟩,
   ⟨"flagMarkerGraphWeakEdges",
     [("lowCoverageThreshold", ArgVal.confInt "MarkerGraph" "lowCoverageThreshold"),
      ("highCoverageThreshold", ArgVal.confInt "MarkerGraph" "highCoverageThreshold"),
      ("maxDistance", ArgVal.confInt "MarkerGraph" "maxDistance")]⟩,
   ⟨"pruneMarkerGraphStrongSubgraph",
     [("iterationCount", ArgVal.confInt "MarkerGraph" "pruneIterationCount")]⟩,
   ⟨"removeShortMarkerGraphCycles",
     [("maxLength", ArgVal.confInt "MarkerGraph" "shortCycleLengthThreshold")]⟩,
   ⟨"removeMarkerGraphBubbles",
     [("maxLength", ArgVal.confInt "MarkerGraph" "bubbleLengthThreshold")]⟩,
   ⟨"removeMarkerGraphSuperBubbles",
     [("maxLength", ArgVal.confInt "MarkerGraph" "superBubbleLengthThreshold")]⟩,
   ⟨"createAssemblyGraphEdges", []⟩,
   ⟨"createAssemblyGraphVertices", []⟩,
   ⟨"writeAssemblyGraph", [("", ArgVal.strLit "AssemblyGraph-Final.dot")]⟩,
   ⟨"assemble",
     [("markerGraphEdgeLengthThresholdForConsensus",
        ArgVal.confInt "Assembly" "markerGraphEdgeLengthThresholdForConsensus"),
      ("useMarginPhase", ArgVal.boolLit useMarginPhase)]⟩,
   ⟨"computeAssemblyStatistics", []⟩,
   ⟨"writeGfa1", [("", ArgVal.strLit "Assembly.gfa")]⟩,
   ⟨"writeFasta", [("", ArgVal.strLit "Assembly.fasta")]⟩]

/-- Call trace of `CreateAndCleanupMarkerGraph.py` (lines 8-38). -/
def createAndCleanupMarkerGraphCalls : List PipelineCall :=
  [⟨"getConfig", []⟩,
   ⟨"Assembler", []⟩,
   ⟨"accessReadsReadOnly", []⟩,
   ⟨"accessKmers", []⟩,
   ⟨"accessMarkers", []⟩,
   ⟨"accessAlignmentData", []⟩,
   ⟨"accessReadGraph", []⟩,
   ⟨"accessChimericReadsFlags", []⟩,
   ⟨"createMarkerGraphVertices",
     [("maxVertexCountPerKmer", ArgVal.confInt "Align" "maxVertexCountPerKmer"),
      ("maxSkip", ArgVal.confInt "Align" "maxSkip"),
      ("minCoverage", ArgVal.confInt "MarkerGraph" "minCoverage"),
      ("maxCoverage", ArgVal.confInt "MarkerGraph" "maxCoverage")]⟩,
   ⟨"createMarkerGraphEdges", []⟩,
   ⟨"flagMarkerGraphWeakEdges",
     [("lowCoverageThreshold", ArgVal.confInt "MarkerGraph" "lowCoverageThreshold"),
      ("highCoverageThreshold", ArgVal.confInt "MarkerGraph" "highCoverageThreshold"),
      ("maxDistance", ArgVal.confInt "MarkerGraph" "maxDistance")]⟩,
   ⟨"pruneMarkerGraphStrongSubgraph",
     [("iterationCount", ArgVal.confInt "MarkerGraph" "pruneIterationCount")]⟩]

/-- Call trace of `FlagMarkerGraphWeakEdges.py` (lines 7-16). -/
def flagMarkerGraphWeakEdgesScriptCalls : List PipelineCall :=
  [⟨"getConfig", []⟩,
   ⟨"Assembler", []⟩,
   ⟨"accessMarkerGraphConnectivity", [("accessEdgesReadWrite", ArgVal.boolLit true)]⟩,
   ⟨"flagMarkerGraphWeakEdges",
     [("minCoverage", ArgVal.confInt "MarkerGraph" "minEdgeCoverage"),
      ("maxDistance", ArgVal.confInt "MarkerGraph" "maxDistance")]⟩]

/-- Call trace of `Assemble.py` (lines 8-28), as a function of the
`useMarginPhase` configuration flag. -/
def assembleScriptCalls (useMarginPhase : Bool) : List PipelineCall :=
  [⟨"getConfig", []⟩,
   ⟨"Assembler", []⟩,
   ⟨"setupConsensusCaller", [("", ArgVal.confStr "Assembly" "consensusCaller")]⟩] ++
  (if useMarginPhase then [⟨"setupMarginPhase", []⟩] else []) ++
  [⟨"accessKmers", []⟩,
   ⟨"accessMarkers", []⟩,
   ⟨"accessMarkerGraphVertices", []⟩,
   ⟨"accessMarkerGraphEdges", []⟩,
   ⟨"accessAssemblyGraphEdges", []⟩,
   ⟨"accessAssemblyGraphEdgeLists", []⟩,
   ⟨"accessMarkerGraphConsensus", []⟩,
   ⟨"assemble", []⟩]

/-- The graph-cleanup stages of the pipeline in their canonical order:
weak-edge classification, pruning, short-cycle removal, bubble removal,
superbubble removal, assembly-graph construction (edges, then vertices). -/
def cleanupStageNames : List String :=
  ["flagMarkerGraphWeakEdges", "pruneMarkerGraphStrongSubgraph",
   "removeShortMarkerGraphCycles", "removeMarkerGraphBubbles",
   "removeMarkerGraphSuperBubbles", "createAssemblyGraphEdges",
   "createAssemblyGraphVertices"]

/-- Whether a call is one of the graph-cleanup stages. -/
def isCleanupStage (c : PipelineCall) : Bool :=
  cleanupStageNames.contains c.fn

theorem filter_cleanup_addReads (fastaFileNames : List String) :
    (fastaFileNames.map (fun f =>
      (⟨"addReadsFromFasta", [("fileName", ArgVal.strLit f),
        ("minReadLength", ArgVal.confInt "Reads" "minReadLength")]⟩ :
          PipelineCall))).filter isCleanupStage = [] := by
  induction fastaFileNames with
  | nil => rfl
  | cons f fs ih =>
    rw [List.map_cons, List.filter_cons]
    have : isCleanupStage
        ⟨"addReadsFromFasta", [("fileName", ArgVal.strLit f),
          ("minReadLength", ArgVal.confInt "Reads" "minReadLength")]⟩ = false := rfl
    rw [this]
    simpa using ih

/-- C4: in every pipeline run, the graph-cleanup stages execute in the fixed
order weak-edge classification, pruning, short-cycle removal, bubble removal,
superbubble removal, assembly-graph construction.  The full run
(`RunAssembly.py`) performs exactly the canonical sequence, and every other
pipeline script (`CreateAndCleanupMarkerGraph.py`,
`FlagMarkerGraphWeakEdges.py`, `Assemble.py`) performs a subsequence of it —
so no topology-simplifier pass ever runs before pruning, bubble removal never
runs before cycle removal, and superbubble removal never before bubble
removal. -/
theorem pipeline_cleanup_stage_order (useMarginPhase : Bool)
    (fastaFileNames : List String) :
    ((runAssemblyCalls useMarginPhase fastaFileNames).filter isCleanupStage).map
        PipelineCall.fn = cleanupStageNames ∧
    List.Sublist ((createAndCleanupMarkerGraphCalls.filter isCleanupStage).map
        PipelineCall.fn) cleanupStageNames ∧
    List.Sublist ((flagMarkerGraphWeakEdgesScriptCalls.filter isCleanupStage).map
        PipelineCall.fn) cleanupStageNames ∧
    List.Sublist (((assembleScriptCalls useMarginPhase).filter isCleanupStage).map
        PipelineCall.fn) cleanupStageNames := by
  refine ⟨?_, by decide, by decide, ?_⟩
  · unfold runAssemblyCalls
    rw [List.filter_append, List.filter_append, List.filter_append,
      List.filter_append, filter_cleanup_addReads]
    cases useMarginPhase <;> rfl
  · cases useMarginPhase <;> decide

/-- C8 counterexample: the invocation of `flagMarkerGraphWeakEdges` in the
pipeline script `FlagMarkerGraphWeakEdges.py` supplies the two keyword
arguments `minCoverage` (read from `MarkerGraph.minEdgeCoverage`) and
`maxDistance`, not the three configuration values `lowCoverageThreshold`,
`highCoverageThreshold`, `maxDistance` that the claim asserts every invocation
supplies. -/
theorem flagMarkerGraphWeakEdges_args_counterexample :
    (flagMarkerGraphWeakEdgesScriptCalls.filter
        (fun c => c.fn == "flagMarkerGraphWeakEdges")).map
        (fun c => c.args.map Prod.fst) = [["minCoverage", "maxDistance"]] ∧
    (["minCoverage", "maxDistance"] : List String) ≠
      ["lowCoverageThreshold", "highCoverageThreshold", "maxDistance"] := by
  refine ⟨rfl, by decide⟩

/-- C8 amended: the invocations of `flagMarkerGraphWeakEdges` in
`RunAssembly.py` and `CreateAndCleanupMarkerGraph.py` supply exactly the three
keyword arguments `lowCoverageThreshold`, `highCoverageThreshold` and
`maxDistance`, each read from the like-named entry of the `MarkerGraph`
configuration section (the scripts make no check that
`lowCoverageThreshold < highCoverageThreshold`); the invocation in
`FlagMarkerGraphWeakEdges.py` instead supplies exactly `minCoverage` (read
from `MarkerGraph.minEdgeCoverage`) and `maxDistance`. -/
theorem flagMarkerGraphWeakEdges_args (useMarginPhase : Bool)
    (fastaFileNames : List String) :
    (runAssemblyCalls useMarginPhase fastaFileNames).filter
        (fun c => c.fn == "flagMarkerGraphWeakEdges") =
      [⟨"flagMarkerGraphWeakEdges",
        [("lowCoverageThreshold", ArgVal.confInt "MarkerGraph" "lowCoverageThreshold"),
         ("highCoverageThreshold", ArgVal.confInt "MarkerGraph" "highCoverageThreshold"),
         ("maxDistance", ArgVal.confInt "MarkerGraph" "maxDistance")]⟩] ∧
    createAndCleanupMarkerGraphCalls.filter
        (fun c => c.fn == "flagMarkerGraphWeakEdges") =
      [⟨"flagMarkerGraphWeakEdges",
        [("lowCoverageThreshold", ArgVal.confInt "MarkerGraph" "lowCoverageThreshold"),
         ("highCoverageThreshold", ArgVal.confInt "MarkerGraph" "highCoverageThreshold"),
         ("maxDistance", ArgVal.confInt "MarkerGraph" "maxDistance")]⟩] ∧
    flagMarkerGraphWeakEdgesScriptCalls.filter
        (fun c => c.fn == "flagMarkerGraphWeakEdges") =
      [⟨"flagMarkerGraphWeakEdges",
        [("minCoverage", ArgVal.confInt "MarkerGraph" "minEdgeCoverage"),
         ("maxDistance", ArgVal.confInt "MarkerGraph" "maxDistance")]⟩] := by
  refine ⟨?_, by decide, by decide⟩
  unfold runAssemblyCalls
  rw [List.filter_append, List.filter_append, List.filter_append,
    List.filter_append]
  have hadd : (fastaFileNames.map (fun f =>
      (⟨"addReadsFromFasta", [("fileName", ArgVal.strLit f),
        ("minReadLength", ArgVal.confInt "Reads" "minReadLength")]⟩ :
          PipelineCall))).filter (fun c => c.fn == "flagMarkerGraphWeakEdges") = [] := by
    induction fastaFileNames with
    | nil => rfl
    | cons f fs ih =>
      rw [List.map_cons, List.filter_cons]
      exact (by simp [ih])
  rw [hadd]
  cases useMarginPhase <;> rfl

/-! ## ComputeAllAlignments script -/

/-- The `computeAllAlignments` call of `ComputeAllAlignments.py` (lines 18-23):
the `maxTrim` keyword argument is read from
`config['Align']['minAlignedMarkerCount']`, the same configuration entry as
the `minAlignedMarkerCount` keyword argument. -/
def computeAllAlignmentsCall : PipelineCall :=
  ⟨"computeAllAlignments",
    [("maxVertexCountPerKmer", ArgVal.confInt "Align" "maxVertexCountPerKmer"),
     ("maxSkip", ArgVal.confInt "Align" "maxSkip"),
     ("minAlignedMarkerCount", ArgVal.confInt "Align" "minAlignedMarkerCount"),
     ("maxTrim", ArgVal.confInt "Align" "minAlignedMarkerCount"),
     ("minCoverage", ArgVal.confInt "MarkerGraph" "minCoverage")]⟩

/-- Call trace of `ComputeAllAlignments.py` (lines 8-23). -/
def computeAllAlignmentsScriptCalls : List PipelineCall :=
  [⟨"getConfig", []⟩,
   ⟨"Assembler", []⟩,
   ⟨"accessReadsReadOnly", []⟩,
   ⟨"accessKmers", []⟩,
   ⟨"accessMarkers", []⟩,
   ⟨"accessOverlaps", []⟩,
   computeAllAlignmentsCall]

/-- A configuration file: an integer value for every section and key. -/
def Config : Type := String → String → Int

/-- The integer value an argument written `int(config[sec][key])` evaluates to
under a given configuration. -/
def evalArgInt (cfg : Config) : ArgVal → Option Int
  | ArgVal.confInt sec key => some (cfg sec key)
  | _ => none

/-- The configuration entries an argument reads. -/
def argConfigRefs : ArgVal → List (String × String)
  | ArgVal.confInt sec key => [(sec, key)]
  | ArgVal.confFloat sec key => [(sec, key)]
  | ArgVal.confStr sec key => [(sec, key)]
  | _ => []

/-- All configuration entries read by a list of calls. -/
def configKeysRead (calls : List PipelineCall) : List (String × String) :=
  (calls.map (fun c => (c.args.map (fun a => argConfigRefs a.2)).flatten)).flatten

/-- C10: for every configuration, `ComputeAllAlignments.py` passes the
configured `Align.minAlignedMarkerCount` value both as the
`minAlignedMarkerCount` argument and as the `maxTrim` argument of
`computeAllAlignments`; the configured `Align.maxTrim` value is never read by
this script. -/
theorem computeAllAlignments_maxTrim_aliased (cfg : Config) :
    (computeAllAlignmentsCall.args.lookup "maxTrim").bind (evalArgInt cfg) =
      some (cfg "Align" "minAlignedMarkerCount") ∧
    (computeAllAlignmentsCall.args.lookup "minAlignedMarkerCount").bind
        (evalArgInt cfg) = some (cfg "Align" "minAlignedMarkerCount") ∧
    ("Align", "maxTrim") ∉ configKeysRead computeAllAlignmentsScriptCalls := by
  refine ⟨rfl, rfl, by decide⟩

/-! ## ComputeAlignments script and the Python loader -/

/-- Python surface token, as far as bracket structure is concerned:
identifiers (keywords included), string literals, numbers, parentheses,
square brackets, commas, equals signs, dots. -/
inductive PyTok
  | ident (s : String)
  | strTok (s : String)
  | lparen
  | rparen
  | lbrack
  | rbrack
  | comma
  | eqSign
  | dot
deriving DecidableEq, Repr

/-- Bracket discipline of a Python module: scanning the token stream with a
stack of open brackets, every closing bracket must match the innermost open
one and the stack must be empty at end of file.  Python refuses to compile a
module that violates this (a bracket left open at end of file is a syntax
error), so passing this check is a necessary condition for the module to
load. -/
def bracketsOk : List PyTok → List PyTok → Bool
  | stack, [] => stack.isEmpty
  | stack, PyTok.lparen :: ts => bracketsOk (PyTok.lparen :: stack) ts
  | stack, PyTok.lbrack :: ts => bracketsOk (PyTok.lbrack :: stack) ts
  | PyTok.lparen :: stack, PyTok.rparen :: ts => bracketsOk stack ts
  | PyTok.lbrack :: stack, PyTok.rbrack :: ts => bracketsOk stack ts
  | _, PyTok.rparen :: _ => false
  | _, PyTok.rbrack :: _ => false
  | stack, _ :: ts => bracketsOk stack ts

/-- Outcome of loading a Python module: either the module compiles and its
statements run, or compilation fails before any statement executes. -/
inductive LoadResult
  | ok (stmts : List PipelineCall)
  | loadFailure
deriving DecidableEq, Repr

/-- Loading model for a Python script: a module whose token stream breaks the
bracket discipline fails to compile (Python reports this at load time, before
executing anything); otherwise the statement list runs. -/
def pythonLoad (ts : List PyTok) (stmts : List PipelineCall) : LoadResult :=
  if bracketsOk [] ts then LoadResult.ok stmts else LoadResult.loadFailure

/-- The calls a Python script actually executes: none at all when the module
fails to compile. -/
def executedCalls (ts : List PyTok) (stmts : List PipelineCall) :
    List PipelineCall :=
  match pythonLoad ts stmts with
  | LoadResult.ok s => s
  | LoadResult.loadFailure => []

/-- Token stream of `ComputeAlignments.py` (code lines 3-25).  On line 18 the
argument `alignmentMethod = int(config['Align']['alignMethodForReadGraph']`
opens a parenthesis after `int` that is never closed: line 25 closes only the
inner `int(` of `gapScore` and the outer `computeAlignments(`. -/
def computeAlignmentsPyTokens : List PyTok :=
  [PyTok.ident "import", PyTok.ident "shasta",
   PyTok.ident "import", PyTok.ident "GetConfig",
   PyTok.ident "import", PyTok.ident "sys",
   PyTok.ident "config", PyTok.eqSign, PyTok.ident "GetConfig", PyTok.dot,
     PyTok.ident "getConfig", PyTok.lparen, PyTok.rparen,
   PyTok.ident "a", PyTok.eqSign, PyTok.ident "shasta", PyTok.dot,
     PyTok.ident "Assembler", PyTok.lparen, PyTok.rparen,
   PyTok.ident "a", PyTok.dot, PyTok.ident "accessKmers", PyTok.lparen, PyTok.rparen,
   PyTok.ident "a", PyTok.dot, PyTok.ident "accessMarkers", PyTok.lparen, PyTok.rparen,
   PyTok.ident "a", PyTok.dot, PyTok.ident "accessAlignmentCandidates",
     PyTok.lparen, PyTok.rparen,
   PyTok.ident "a", PyTok.dot, PyTok.ident "computeAlignments", PyTok.lparen,
   PyTok.ident "alignmentMethod", PyTok.eqSign, PyTok.ident "int", PyTok.lparen,
     PyTok.ident "config", PyTok.lbrack, PyTok.strTok "Align", PyTok.rbrack,
     PyTok.lbrack, PyTok.strTok "alignMethodForReadGraph", PyTok.rbrack,
   PyTok.ident "maxMarkerFrequency", PyTok.eqSign, PyTok.ident "int", PyTok.lparen,
     PyTok.ident "config", PyTok.lbrack, PyTok.strTok "Align", PyTok.rbrack,
     PyTok.lbrack, PyTok.strTok "maxMarkerFrequency", PyTok.rbrack, PyTok.rparen,
     PyTok.comma,
   PyTok.ident "maxSkip", PyTok.eqSign, PyTok.ident "int", PyTok.lparen,
     PyTok.ident "config", PyTok.lbrack, PyTok.strTok "Align", PyTok.rbrack,
     PyTok.lbrack, PyTok.strTok "maxSkip", PyTok.rbrack, PyTok.rparen,
     PyTok.comma,
   PyTok.ident "minAlignedMarkerCount", PyTok.eqSign, PyTok.ident "int",
     PyTok.lparen, PyTok.ident "config", PyTok.lbrack, PyTok.strTok "Align",
     PyTok.rbrack, PyTok.lbrack, PyTok.strTok "minAlignedMarkerCount",
     PyTok.rbrack, PyTok.rparen, PyTok.comma,
   PyTok.ident "maxTrim", PyTok.eqSign, PyTok.ident "int", PyTok.lparen,
     PyTok.ident "config", PyTok.lbrack, PyTok.strTok "Align", PyTok.rbrack,
     PyTok.lbrack, PyTok.strTok "maxTrim", PyTok.rbrack, PyTok.rparen,
     PyTok.comma,
   PyTok.ident "matchScore", PyTok.eqSign, PyTok.ident "int", PyTok.lparen,
     PyTok.ident "config", PyTok.lbrack, PyTok.strTok "Align", PyTok.rbrack,
     PyTok.lbrack, PyTok.strTok "matchScore", PyTok.rbrack, PyTok.rparen,
     PyTok.comma,
   PyTok.ident "mismatchScore", PyTok.eqSign, PyTok.ident "int", PyTok.lparen,
     PyTok.ident "config", PyTok.lbrack, PyTok.strTok "Align", PyTok.rbrack,
     PyTok.lbrack, PyTok.strTok "mismatchScore", PyTok.rbrack, PyTok.rparen,
     PyTok.comma,
   PyTok.ident "gapScore", PyTok.eqSign, PyTok.ident "int", PyTok.lparen,
     PyTok.ident "config", PyTok.lbrack, PyTok.strTok "Align", PyTok.rbrack,
     PyTok.lbrack, PyTok.strTok "gapScore", PyTok.rbrack, PyTok.rparen,
     PyTok.rparen]

/-- C9: for every configuration and input, the `ComputeAlignments.py` script
fails to compile at load time (the `computeAlignments` call has an unclosed
parenthesis on its `alignmentMethod` argument, so the module's bracket
discipline is violated), hence whatever its statement list would have been, it
never constructs an `Assembler`, never calls `computeAlignments`, and executes
no call at all, leaving all state unchanged. -/
theorem computeAlignmentsScript_load_fails (stmts : List PipelineCall) :
    pythonLoad computeAlignmentsPyTokens stmts = LoadResult.loadFailure ∧
    executedCalls computeAlignmentsPyTokens stmts = [] := by
  have h : bracketsOk [] computeAlignmentsPyTokens = false := by decide
  constructor
  · unfold pythonLoad
    rw [h]
    rfl
  · unfold executedCalls pythonLoad
    rw [h]
    rfl

end Shasta
